import Mathlib

/-!
Verification of the vendor payable report pipeline
(`filter_ap_analysis` and `aggregate_vendor_data_by_date` from
`update_vendor_payable_report.py`), shallowly embedded in Lean:
pandas tables become lists of rows, float amounts become exact
rationals, timestamps become calendar dates at day granularity.
-/

namespace VendorPayable

/-- Value of a list of decimal digit characters, most significant first. -/
def digitsToNat (ds : List Char) : Nat :=
  ds.foldl (fun a c => 10 * a + (c.toNat - '0'.toNat)) 0

/-- Characters Python's `str.strip` removes from both ends. -/
def stripChars (cs : List Char) : List Char :=
  ((cs.dropWhile Char.isWhitespace).reverse.dropWhile Char.isWhitespace).reverse

/-- `str.strip()` on both ends of a string. -/
def strip (s : String) : String :=
  ⟨stripChars s.data⟩

/-- `str.casefold()` restricted to the ASCII vocabulary in play. -/
def toLowerStr (s : String) : String :=
  ⟨s.data.map Char.toLower⟩

/-- Code-point lexicographic order on character lists, the order Python
uses to compare strings (and pandas to sort group keys). -/
def lexLt : List Char → List Char → Bool
  | [], [] => false
  | [], _ :: _ => true
  | _ :: _, [] => false
  | a :: as, b :: bs =>
      decide (a.toNat < b.toNat) || (a == b && lexLt as bs)

def strLtB (a b : String) : Bool :=
  lexLt a.data b.data

/-- Decimal parse of a normalized amount string into an exact rational.
Embeds the success cases of `pd.to_numeric` on strings such as
"-1234.56": an optional sign, then digits with at most one point
and at least one digit. Anything else parses to `none` (which the
two call sites treat differently: coerce-to-NaN, then drop or zero). -/
def parseDecimal (s : String) : Option ℚ :=
  let cs := s.data
  let signed : ℚ × List Char :=
    match cs with
    | '-' :: t => (-1, t)
    | '+' :: t => (1, t)
    | _ => (1, cs)
  let body := signed.2
  match body.splitOn '.' with
  | [intPart] =>
      if intPart ≠ [] ∧ intPart.all Char.isDigit then
        some (signed.1 * (digitsToNat intPart : ℚ))
      else none
  | [intPart, fracPart] =>
      if (intPart ≠ [] ∨ fracPart ≠ []) ∧ intPart.all Char.isDigit ∧ fracPart.all Char.isDigit then
        some (signed.1 * ((digitsToNat intPart : ℚ) +
          (digitsToNat fracPart : ℚ) / ((10 : ℚ) ^ fracPart.length)))
      else none
  | _ => none

/-- Amount normalization: strip, drop "$" and ",", turn "(" into "-"
and drop ")". Embeds the chained `.str.strip().str.replace(...)` calls
used by both stages (lines 109-117 and 186-192 of the source); the
patterns are single characters, so the replacements act charwise. -/
def normalizeAmount (s : String) : String :=
  ⟨((stripChars s.data).filter (fun c => ¬ (c = '$' ∨ c = ',' ∨ c = ')'))).map
    (fun c => if c = '(' then '-' else c)⟩

/-- Amount of a row in the aggregation stage: parse failures become 0.0
(`pd.to_numeric(amt, errors="coerce").fillna(0.0)`). -/
def amtOf (amount : String) : ℚ :=
  (parseDecimal (normalizeAmount amount)).getD 0

/-- Account code extraction: the regex `^\s*(\d{5})` — optional leading
whitespace, then five digits anchored at the start of the string;
no match coerces to NaN, embedded as `none`. -/
def extractAcct (s : String) : Option Nat :=
  let cs := s.data.dropWhile Char.isWhitespace
  let ds := cs.take 5
  if ds.length = 5 ∧ ds.all Char.isDigit then some (digitsToNat ds) else none

/-- Maximal runs of consecutive digits in a character list; `acc` holds
the current run reversed. -/
def digitRunsAux : List Char → List Char → List (List Char)
  | [], acc => if acc = [] then [] else [acc.reverse]
  | c :: t, acc =>
    if c.isDigit then digitRunsAux t (c :: acc)
    else if acc = [] then digitRunsAux t []
    else acc.reverse :: digitRunsAux t []

/-- Modelled from the spec (§4.2 contract, claim side only): "extract
the first run of exactly 5 digits" occurring anywhere in the account
string, `none` when no maximal digit run has length exactly 5. Stated
for comparison against `extractAcct`, the source's anchored regex. -/
def specFirstRun5 (s : String) : Option Nat :=
  match (digitRunsAux s.data []).filter (fun run => run.length = 5) with
  | [] => none
  | run :: _ => some (digitsToNat run)

/-- Collapse runs of whitespace to a single space
(the `\s+` → " " regex replacement); the flag records whether the
previous character was whitespace. -/
def collapseWsAux : List Char → Bool → List Char
  | [], _ => []
  | c :: t, prevWs =>
    if c.isWhitespace then
      if prevWs then collapseWsAux t true else ' ' :: collapseWsAux t true
    else c :: collapseWsAux t false

def collapseWs (s : String) : String :=
  ⟨collapseWsAux s.data false⟩

/-- Fixed synonym table applied after strip/casefold/collapse
(the `.replace({...}, regex=False)` dictionary of the source). -/
def typeSynonym (t : String) : String :=
  if t = "bill" then "vendor bill"
  else if t = "vendorbill" then "vendor bill"
  else if t = "vendor  bill" then "vendor bill"
  else if t = "journal entry" then "journal"
  else if t = "itemreceipt" then "item receipt"
  else if t = "billpayment" then "bill payment"
  else if t = "vendorprepayment" then "vendor prepayment"
  else if t = "vendorprepayment application" then "vendor prepayment application"
  else t

/-- Canonical type label: strip, casefold (lower-case for our ASCII
vocabulary), collapse whitespace runs, then the synonym table. -/
def canonType (s : String) : String :=
  typeSynonym (collapseWs (toLowerStr (strip s)))

/-! ### Calendar dates at day granularity -/

/-- A calendar date; `pd.Timestamp.normalize()` reduces a timestamp to
this day-granularity value. -/
structure Date where
  y : Nat
  m : Nat
  d : Nat
deriving DecidableEq, Repr

def isLeap (y : Nat) : Bool :=
  (y % 4 = 0 && y % 100 ≠ 0) || y % 400 = 0

def daysInMonth (y m : Nat) : Nat :=
  if m = 1 ∨ m = 3 ∨ m = 5 ∨ m = 7 ∨ m = 8 ∨ m = 10 ∨ m = 12 then 31
  else if m = 4 ∨ m = 6 ∨ m = 9 ∨ m = 11 then 30
  else if isLeap y then 29 else 28

/-- Strict order on normalized timestamps (year, then month, then day). -/
def dateLT (a b : Date) : Bool :=
  decide (a.y < b.y ∨ (a.y = b.y ∧ (a.m < b.m ∨ (a.m = b.m ∧ a.d < b.d))))

/-- Non-strict order on normalized timestamps. -/
def dateLE (a b : Date) : Bool :=
  decide (a.y < b.y ∨ (a.y = b.y ∧ (a.m < b.m ∨ (a.m = b.m ∧ a.d ≤ b.d))))

/-- Day after a date in the civil calendar. -/
def dateSucc (dt : Date) : Date :=
  if dt.d < daysInMonth dt.y dt.m then ⟨dt.y, dt.m, dt.d + 1⟩
  else if dt.m < 12 then ⟨dt.y, dt.m + 1, 1⟩
  else ⟨dt.y + 1, 1, 1⟩

/-- Valid "HH:MM" or "HH:MM:SS" time-of-day digits. -/
def validTime (cs : List Char) : Bool :=
  match cs with
  | [h1, h2, ':', n1, n2] =>
      [h1, h2, n1, n2].all Char.isDigit &&
      digitsToNat [h1, h2] ≤ 23 && digitsToNat [n1, n2] ≤ 59
  | [h1, h2, ':', n1, n2, ':', s1, s2] =>
      [h1, h2, n1, n2, s1, s2].all Char.isDigit &&
      digitsToNat [h1, h2] ≤ 23 && digitsToNat [n1, n2] ≤ 59 &&
      digitsToNat [s1, s2] ≤ 59
  | _ => false

/-- Parse an ISO "YYYY-MM-DD" string, optionally followed by a
time-of-day component, into a day-granularity date; the time-of-day
is validated and discarded. Embeds `pd.to_datetime(...).normalize()`
(resp. `.dt.normalize()`); an unparseable string is `none` (NaT). -/
def parseDateNorm (s : String) : Option Date :=
  match stripChars s.data with
  | y1 :: y2 :: y3 :: y4 :: '-' :: m1 :: m2 :: '-' :: d1 :: d2 :: rest =>
    if [y1, y2, y3, y4, m1, m2, d1, d2].all Char.isDigit then
      let y := digitsToNat [y1, y2, y3, y4]
      let m := digitsToNat [m1, m2]
      let d := digitsToNat [d1, d2]
      if 1 ≤ m ∧ m ≤ 12 ∧ 1 ≤ d ∧ d ≤ daysInMonth y m then
        match rest with
        | [] => some ⟨y, m, d⟩
        | c :: t => if (c = ' ' ∨ c = 'T') ∧ validTime t then some ⟨y, m, d⟩ else none
      else none
    else none
  | _ => none

/-! ### Rows, rule sets and classification -/

/-- One ledger row of the (already filtered) AP analysis table, holding
the five raw string fields `aggregate_vendor_data_by_date` reads. -/
structure Row where
  date : String
  amount : String
  account : String
  type : String
  vendor : String
deriving DecidableEq, Repr

def ACCRUED_ACCTS : List Nat := [21109, 21142]
def BILL_ACCTS : List Nat := [21142, 21110, 21117]
def PAY_ACCTS : List Nat := [13150, 21110, 21117]

def ACCRUED_TYPES : List String := ["vendor bill", "bill credit", "item receipt"]
def BILL_TYPES : List String := ["vendor bill", "bill credit", "vendor credit", "journal"]
def PAY_TYPES : List String := ["bill payment", "vendor prepayment", "vendor prepayment application"]

/-- `_acct.isin(accts)`: NaN (no extracted code) is in no set. -/
def acctIn (r : Row) (accts : List Nat) : Bool :=
  match extractAcct r.account with
  | some a => accts.contains a
  | none => false

def accruedMask (r : Row) : Bool :=
  acctIn r ACCRUED_ACCTS && ACCRUED_TYPES.contains (canonType r.type)

def billMask (r : Row) : Bool :=
  acctIn r BILL_ACCTS && BILL_TYPES.contains (canonType r.type)

def payMask (r : Row) : Bool :=
  acctIn r PAY_ACCTS && PAY_TYPES.contains (canonType r.type)

def journalAdjMask (r : Row) : Bool :=
  (canonType r.type == "journal") && !(acctIn r BILL_ACCTS)

/-- Exclusive classification, embedding the `Series.mask` cascade of the
source: start at "other", overwrite with "payment" where `pay_mask`,
then with "accrued"/"bill"/"adjustments" where still "other" and the
corresponding mask holds. -/
def classifyRow (r : Row) : String :=
  let cls := "other"
  let cls := if payMask r then "payment" else cls
  let cls := if cls == "other" && accruedMask r then "accrued" else cls
  let cls := if cls == "other" && billMask r then "bill" else cls
  let cls := if cls == "other" && journalAdjMask r then "adjustments" else cls
  cls

/-- Modelled from the spec: the precedence order as §4.5 words it —
evaluate Payment first and stop at the first matching rule, Accrued
Purchases next, then Bill, then Adjustments, otherwise "other". -/
def classifySpec (r : Row) : String :=
  if payMask r then "payment"
  else if accruedMask r then "accrued"
  else if billMask r then "bill"
  else if journalAdjMask r then "adjustments"
  else "other"

/-- Per-row "Accrued Purchases" contribution column
(`_amt.where(_class == "accrued", 0.0)`). -/
def accruedCol (r : Row) : ℚ :=
  if classifyRow r = "accrued" then amtOf r.amount else 0

/-- Per-row "Bill" contribution column. -/
def billCol (r : Row) : ℚ :=
  if classifyRow r = "bill" then amtOf r.amount else 0

/-- Per-row "Payment" contribution column. -/
def payCol (r : Row) : ℚ :=
  if classifyRow r = "payment" then amtOf r.amount else 0

/-- Per-row "Adjustments" contribution column. -/
def adjCol (r : Row) : ℚ :=
  if classifyRow r = "adjustments" then amtOf r.amount else 0

/-! ### Aggregation by vendor -/

/-- One output row of the vendor summary, in the source's column order
Vendor, Accrued Purchases, Adjustments, Bill, Payment. -/
structure VRow where
  vendor : String
  accrued : ℚ
  adjustments : ℚ
  bill : ℚ
  payment : ℚ
deriving DecidableEq, Repr

/-- The output table together with its column schema. -/
structure VTable where
  cols : List String
  rows : List VRow
deriving DecidableEq, Repr

def outputCols : List String :=
  ["Vendor", "Accrued Purchases", "Adjustments", "Bill", "Payment"]

/-- Keep rows whose normalized date lies in the inclusive window
(`(_date >= s) & (_date <= e)`; NaT compares false). -/
def windowPred (s e : Date) (r : Row) : Bool :=
  match parseDateNorm r.date with
  | some d => dateLE s d && dateLE d e
  | none => false

/-- Deduplicate vendor names (keeping one occurrence of each). -/
def dedup : List String → List String
  | [] => []
  | x :: xs => if x ∈ xs then dedup xs else x :: dedup xs

/-- Insert into a sorted list of strings. -/
def sinsert (x : String) : List String → List String
  | [] => [x]
  | y :: ys => if strLtB x y then x :: y :: ys else y :: sinsert x ys

/-- Sort strings ascending, as `groupby(sort=True)` orders group keys. -/
def ssort : List String → List String
  | [] => []
  | x :: xs => sinsert x (ssort xs)

/-- The sorted distinct group keys of `groupby(vendor_col)`. -/
def vendorKeys (rows : List Row) : List String :=
  ssort (dedup (rows.map Row.vendor))

/-- Sum of a per-row column over one vendor's group. -/
def sumCol (rows : List Row) (v : String) (f : Row → ℚ) : ℚ :=
  ((rows.filter (fun r => r.vendor == v)).map f).sum

/-- The summary row of one vendor group. -/
def mkVRow (rows : List Row) (v : String) : VRow :=
  ⟨v, sumCol rows v accruedCol, sumCol rows v adjCol,
    sumCol rows v billCol, sumCol rows v payCol⟩

/-- Embeds `aggregate_vendor_data_by_date` (fixed default column names,
so the required-columns check is vacuous): parse and normalize the
window bounds, reject an unparseable or inverted window, filter rows to
the inclusive window, return the empty five-column table when nothing
remains, otherwise classify each row and sum the contribution columns
per vendor. -/
def aggregate_vendor_data_by_date (df : List Row) (start_date end_date : String) :
    Except String VTable :=
  match parseDateNorm start_date, parseDateNorm end_date with
  | some s, some e =>
      if dateLT e s then
        Except.error "start_date cannot be after end_date."
      else
        let tmp := df.filter (windowPred s e)
        if tmp.isEmpty then Except.ok ⟨outputCols, []⟩
        else Except.ok ⟨outputCols, (vendorKeys tmp).map (mkVRow tmp)⟩
  | _, _ => Except.error "start_date/end_date could not be parsed."

instance {ε α : Type} [DecidableEq ε] [DecidableEq α] : DecidableEq (Except ε α)
  | .ok a, .ok b => decidable_of_iff (a = b) (by simp)
  | .error a, .error b => decidable_of_iff (a = b) (by simp)
  | .ok _, .error _ => isFalse (by simp)
  | .error _, .ok _ => isFalse (by simp)

/-! ### The filter stage -/

/-- One raw row of the AP analysis table: cells addressed by column
name; a missing entry is NaN (`none`). -/
def FRow : Type := List (String × Option String)

instance : DecidableEq FRow := by
  unfold FRow
  infer_instance

/-- A raw table: its column schema and its rows. -/
structure FTable where
  cols : List String
  rows : List FRow
deriving DecidableEq

/-- Cell of a row at a column (NaN when absent). -/
def getCell (r : FRow) (c : String) : Option String :=
  match r.find? (fun p => p.1 == c) with
  | some p => p.2
  | none => none

/-- `astype(str)` renders NaN as the string "nan". -/
def cellStr (r : FRow) (c : String) : String :=
  match getCell r c with
  | some s => s
  | none => "nan"

/-- Embeds `filter_ap_analysis`: normalize the amount column and keep
parseable non-zero amounts, then keep rows whose merch cell equals
`keep_merch` exactly (NaN as ""), then keep rows whose category cell,
stripped and case-folded, equals the case-folded `keep_cat`. Each of
the three column-presence checks is made just before its own filter
step, raising `KeyError` (an error value here) that names only that
column. -/
def filter_ap_analysis (t : FTable)
    (amount_col merch_col category_col keep_merch keep_cat : String) :
    Except String FTable :=
  if amount_col ∈ t.cols then
    let rows1 := t.rows.filter (fun r =>
      match parseDecimal (normalizeAmount (cellStr r amount_col)) with
      | some q => q ≠ 0
      | none => false)
    if merch_col ∈ t.cols then
      let rows2 := rows1.filter (fun r => (getCell r merch_col).getD "" == keep_merch)
      if category_col ∈ t.cols then
        Except.ok ⟨t.cols, rows2.filter (fun r =>
          toLowerStr (strip ((getCell r category_col).getD "")) == toLowerStr keep_cat)⟩
      else Except.error ("Expected column '" ++ category_col ++ "' not found")
    else Except.error ("Expected column '" ++ merch_col ++ "' not found")
  else Except.error ("Expected column '" ++ amount_col ++ "' not found")

/-! ### Theorems -/

attribute [local semireducible] Rat.add Rat.mul Rat.inv Rat.sub Rat.ofScientific

/-- C1: per in-window row, classification yields exactly one label from
the five-element vocabulary, the four contribution columns sum to the
row's normalized amount for the four real classes and to 0 for "other",
and at least three of the four columns are zero, so no row is counted
in more than one column. (Proved for every row, windowed or not.) -/
theorem classification_exclusive_and_sums (r : Row) :
    classifyRow r ∈ (["accrued", "bill", "payment", "adjustments", "other"] : List String)
    ∧ accruedCol r + billCol r + payCol r + adjCol r
        = (if classifyRow r = "other" then 0 else amtOf r.amount)
    ∧ ((billCol r = 0 ∧ payCol r = 0 ∧ adjCol r = 0)
       ∨ (accruedCol r = 0 ∧ payCol r = 0 ∧ adjCol r = 0)
       ∨ (accruedCol r = 0 ∧ billCol r = 0 ∧ adjCol r = 0)
       ∨ (accruedCol r = 0 ∧ billCol r = 0 ∧ payCol r = 0)) := by
  cases hp : payMask r <;> cases ha : accruedMask r <;> cases hb : billMask r <;>
    cases hj : journalAdjMask r <;>
      simp [classifyRow, accruedCol, billCol, payCol, adjCol, hp, ha, hb, hj]

/-- C2: the mask-cascade classification of the source equals the literal
precedence order of the spec — Payment first, then Accrued Purchases,
then Bill, then Adjustments, stopping at the first match — so a row
satisfying both the Payment and the Bill rule is classified as Payment. -/
theorem classification_precedence (r : Row) :
    classifyRow r = classifySpec r := by
  cases hp : payMask r <;> cases ha : accruedMask r <;> cases hb : billMask r <;>
    cases hj : journalAdjMask r <;> simp [classifyRow, classifySpec, hp, ha, hb, hj]

/-- C3: the two example rows of the spec aggregate, over the window
2025-08-18 to 2025-08-24, to the single summary row
Vendor=Acme, Accrued Purchases=500, Adjustments=0, Bill=0, Payment=-500. -/
theorem end_to_end_example :
    aggregate_vendor_data_by_date
      [⟨"2025-08-20", "$500.00", "21142-AP", "Vendor Bill", "Acme"⟩,
       ⟨"2025-08-21", "(500.00)", "13150", "Bill Payment", "Acme"⟩]
      "2025-08-18" "2025-08-24"
    = Except.ok ⟨outputCols, [⟨"Acme", 500, 0, 0, -500⟩]⟩ := by decide

/-- C6: amount normalization maps "$1,234.56" to 1234.56, "(1,234.56)"
to -1234.56 and " 1234.56 " to 1234.56; in the aggregation stage an
unparseable amount becomes 0.0 and the row is retained (its vendor
still appears, with all-zero sums, in the output). -/
theorem amount_normalization_examples :
    parseDecimal (normalizeAmount "$1,234.56") = some (1234.56 : ℚ)
    ∧ parseDecimal (normalizeAmount "(1,234.56)") = some (-1234.56 : ℚ)
    ∧ parseDecimal (normalizeAmount " 1234.56 ") = some (1234.56 : ℚ)
    ∧ amtOf "N/A" = 0
    ∧ aggregate_vendor_data_by_date
        [⟨"2025-08-20", "N/A", "21142-AP", "Vendor Bill", "Acme"⟩]
        "2025-08-18" "2025-08-24"
      = Except.ok ⟨outputCols, [⟨"Acme", 0, 0, 0, 0⟩]⟩ := by decide

/-- A prefix made of characters accepted by `p` drops away. -/
theorem dropWhile_append_all {p : Char → Bool} (l1 l2 : List Char)
    (h : ∀ c ∈ l1, p c = true) :
    (l1 ++ l2).dropWhile p = l2.dropWhile p := by
  induction l1 with
  | nil => simp
  | cons a t ih =>
      simp only [List.cons_append, List.dropWhile_cons, h a (by simp)]
      exact ih (fun c hc => h c (by simp [hc]))

/-- A decimal digit character is not whitespace. -/
theorem digit_not_ws (c : Char) (h : c.isDigit = true) : c.isWhitespace = false := by
  cases hw : c.isWhitespace with
  | false => rfl
  | true =>
      exfalso
      simp only [Char.isWhitespace, Bool.or_eq_true, decide_eq_true_eq] at hw
      rcases hw with ((h1 | h1) | h1) | h1 <;> subst h1 <;> exact absurd h (by decide)

/-- C4 counterexample: the source's extraction is anchored at the start
of the string and takes the first five digits of a longer run, so on
"x21142" it yields no code where the claimed first-run-of-exactly-5
reading yields 21142, and on "123456" it yields 12345 where the claimed
reading yields no code. -/
theorem account_extraction_counterexample :
    extractAcct "x21142" = none ∧ specFirstRun5 "x21142" = some 21142
    ∧ extractAcct "123456" = some 12345 ∧ specFirstRun5 "123456" = none := by decide

/-- C4 amended: extraction returns the value of the first five digits of
a string that begins, after optional leading whitespace, with at least
five digits; otherwise the account resolves to no code, and a no-code
row satisfies none of the three account-gated rule predicates. -/
theorem account_extraction_amended :
    (∀ (ws ds rest : List Char), (∀ c ∈ ws, c.isWhitespace = true) →
        ds.length = 5 → (∀ c ∈ ds, c.isDigit = true) →
        extractAcct ⟨ws ++ (ds ++ rest)⟩ = some (digitsToNat ds))
    ∧ (∀ r : Row, extractAcct r.account = none →
        accruedMask r = false ∧ billMask r = false ∧ payMask r = false) := by
  constructor
  · intro ws ds rest hws hlen hds
    unfold extractAcct
    rw [show (String.mk (ws ++ (ds ++ rest))).data = ws ++ (ds ++ rest) from rfl]
    rw [dropWhile_append_all ws _ hws]
    cases ds with
    | nil => simp at hlen
    | cons d dt =>
        rw [List.cons_append, List.dropWhile_cons]
        rw [digit_not_ws d (hds d (by simp))]
        simp only [Bool.false_eq_true, if_false]
        rw [show (5 : Nat) = (d :: dt).length from hlen.symm]
        rw [show d :: (dt ++ rest) = (d :: dt) ++ rest from rfl, List.take_left]
        simp only [List.all_eq_true, hlen, true_and]
        exact if_pos hds
  · intro r h
    simp [accruedMask, billMask, payMask, acctIn, h]

/-- C4 amended witness: both parts at concrete inputs — " 21142-AP"
extracts to 21142, and a row whose account "AP accrual" has no code
fails all three account-gated predicates. -/
theorem account_extraction_amended_witness :
    extractAcct (String.mk ([' '] ++ (['2','1','1','4','2'] ++ ['-','A','P'])))
        = some (digitsToNat ['2','1','1','4','2'])
    ∧ (accruedMask ⟨"2025-08-20", "5", "AP accrual", "Vendor Bill", "A"⟩ = false
       ∧ billMask ⟨"2025-08-20", "5", "AP accrual", "Vendor Bill", "A"⟩ = false
       ∧ payMask ⟨"2025-08-20", "5", "AP accrual", "Vendor Bill", "A"⟩ = false) :=
  ⟨account_extraction_amended.1 [' '] ['2','1','1','4','2'] ['-','A','P']
      (by decide) (by decide) (by decide),
   account_extraction_amended.2 ⟨"2025-08-20", "5", "AP accrual", "Vendor Bill", "A"⟩ (by decide)⟩

/-- C5 counterexample: with only the amount column present, both the
merch and the category fields are missing, yet the filter stage's error
names only 'merchType' — "Category" does not occur in the message — so
the missing names are not all listed. -/
theorem filter_missing_columns_counterexample :
    filter_ap_analysis ⟨["Amount"], [[("Amount", some "5")]]⟩
      "Amount" "merchType" "Category" "Merch" "Home Services"
      = Except.error "Expected column 'merchType' not found"
    ∧ ¬ ("Category".data <:+: "Expected column 'merchType' not found".data) := by decide

/-- C5 amended: the filter stage checks the amount, merch and category
columns in that order, each just before its own filter step, and fails
with a configuration error naming only the first missing field: when
the amount column is present and the merch column is absent, the error
names the merch column alone, whatever the state of the category
column (amount filtering having already been applied). -/
theorem filter_first_missing_column (t : FTable) (a m c km kc : String)
    (ha : a ∈ t.cols) (hm : m ∉ t.cols) :
    filter_ap_analysis t a m c km kc
      = Except.error ("Expected column '" ++ m ++ "' not found") := by
  simp [filter_ap_analysis, ha, hm]

/-- C5 amended witness: the default column names against a table that
has only the amount column. -/
theorem filter_first_missing_column_witness :
    filter_ap_analysis ⟨["Amount"], []⟩ "Amount" "merchType" "Category" "Merch" "Home Services"
      = Except.error ("Expected column '" ++ "merchType" ++ "' not found") :=
  filter_first_missing_column ⟨["Amount"], []⟩ "Amount" "merchType" "Category"
    "Merch" "Home Services" (by decide) (by decide)

/-- The window order is reflexive: a date is on or after itself. -/
theorem dateLE_refl (d : Date) : dateLE d d = true := by simp [dateLE]

/-- Totality: if `b` is not strictly before `a` then `a ≤ b`. -/
theorem dateLE_of_not_lt {a b : Date} (h : dateLT b a = false) : dateLE a b = true := by
  simp only [dateLT, decide_eq_false_iff_not] at h
  simp only [dateLE, decide_eq_true_eq]
  omega

/-- The next calendar day is never on or before its predecessor. -/
theorem dateLE_succ_false (d : Date) : dateLE (dateSucc d) d = false := by
  unfold dateSucc
  split_ifs with h1 h2 <;>
    simp only [dateLE, decide_eq_false_iff_not] <;> omega

/-- C7: for a valid window, a row whose date normalizes to exactly the
start or exactly the end date is kept, a row whose day is one before
the start or one after the end is dropped, membership is exactly the
inclusive day-granularity comparison on the normalized date, and a
time-of-day component is discarded before comparing. -/
theorem date_window_inclusive (s e n : Date) (r : Row)
    (hse : dateLT e s = false) (hr : parseDateNorm r.date = some n) :
    ((n = s ∨ n = e) → windowPred s e r = true)
    ∧ (dateSucc n = s → windowPred s e r = false)
    ∧ (n = dateSucc e → windowPred s e r = false)
    ∧ windowPred s e r = (dateLE s n && dateLE n e)
    ∧ parseDateNorm "2025-08-20 13:45:09" = parseDateNorm "2025-08-20" := by
  have hw : windowPred s e r = (dateLE s n && dateLE n e) := by
    simp [windowPred, hr]
  refine ⟨?_, ?_, ?_, hw, by decide⟩
  · rintro (rfl | rfl)
    · rw [hw, dateLE_refl, dateLE_of_not_lt hse]; rfl
    · rw [hw, dateLE_refl, dateLE_of_not_lt hse]; rfl
  · rintro rfl
    rw [hw, dateLE_succ_false]
    rfl
  · rintro rfl
    rw [hw, dateLE_succ_false]
    simp

/-- C7 witness: a row dated exactly on the start bound of the
2025-08-18 to 2025-08-24 window is kept. -/
theorem date_window_inclusive_witness :
    windowPred ⟨2025, 8, 18⟩ ⟨2025, 8, 24⟩
      ⟨"2025-08-18", "5", "13150", "Bill Payment", "Acme"⟩ = true :=
  (date_window_inclusive ⟨2025, 8, 18⟩ ⟨2025, 8, 24⟩ ⟨2025, 8, 18⟩
    ⟨"2025-08-18", "5", "13150", "Bill Payment", "Acme"⟩ (by decide) (by decide)).1
    (Or.inl rfl)

/-- C8: with valid window bounds, a table none of whose rows falls in
the window aggregates to the empty summary with the fixed five-column
schema Vendor, Accrued Purchases, Adjustments, Bill, Payment — an ok
value, not an error. -/
theorem empty_window_schema (df : List Row) (s e : String) (sd ed : Date)
    (hs : parseDateNorm s = some sd) (he : parseDateNorm e = some ed)
    (hse : dateLT ed sd = false) (hempty : df.filter (windowPred sd ed) = []) :
    aggregate_vendor_data_by_date df s e = Except.ok ⟨outputCols, []⟩ := by
  unfold aggregate_vendor_data_by_date
  rw [hs, he]
  simp [hse, hempty]

/-- C8 witness: one January row against an August window. -/
theorem empty_window_schema_witness :
    aggregate_vendor_data_by_date [⟨"2025-01-01", "5", "21142", "Vendor Bill", "Acme"⟩]
      "2025-08-18" "2025-08-24" = Except.ok ⟨outputCols, []⟩ :=
  empty_window_schema _ "2025-08-18" "2025-08-24" ⟨2025, 8, 18⟩ ⟨2025, 8, 24⟩
    (by decide) (by decide) (by decide) (by decide)

/-- Deduplication preserves membership. -/
theorem mem_dedup {a : String} {l : List String} : a ∈ dedup l ↔ a ∈ l := by
  induction l with
  | nil => simp [dedup]
  | cons x xs ih =>
      by_cases hx : x ∈ xs
      · rw [dedup, if_pos hx]
        rw [ih]
        simp only [List.mem_cons]
        constructor
        · exact Or.inr
        · rintro (rfl | h)
          · exact hx
          · exact h
      · rw [dedup, if_neg hx]
        simp [ih]

/-- Sorted insertion preserves membership. -/
theorem mem_sinsert {a x : String} {l : List String} : a ∈ sinsert x l ↔ a = x ∨ a ∈ l := by
  induction l with
  | nil => simp [sinsert]
  | cons y ys ih =>
      rw [sinsert]
      split_ifs with h
      · simp [List.mem_cons]
      · simp only [List.mem_cons, ih]
        tauto

/-- Sorting preserves membership. -/
theorem mem_ssort {a : String} {l : List String} : a ∈ ssort l ↔ a ∈ l := by
  induction l with
  | nil => simp [ssort]
  | cons x xs ih => simp [ssort, mem_sinsert, ih]

/-- C9: every vendor name carried by at least one in-window row gets a
summary row, whatever that row classified as (so also for all-"other"
groups whose four sums are zero). -/
theorem vendor_retained (df : List Row) (s e : String) (sd ed : Date) (r : Row)
    (hs : parseDateNorm s = some sd) (he : parseDateNorm e = some ed)
    (hse : dateLT ed sd = false) (hmem : r ∈ df) (hwin : windowPred sd ed r = true) :
    ∃ t, aggregate_vendor_data_by_date df s e = Except.ok t
      ∧ r.vendor ∈ t.rows.map VRow.vendor := by
  unfold aggregate_vendor_data_by_date
  rw [hs, he]
  have hmemf : r ∈ df.filter (windowPred sd ed) := List.mem_filter.mpr ⟨hmem, hwin⟩
  have hne : (df.filter (windowPred sd ed)).isEmpty = false := by
    cases hf : df.filter (windowPred sd ed) with
    | nil => rw [hf] at hmemf; simp at hmemf
    | cons b bs => simp [List.isEmpty]
  simp only [hse, Bool.false_eq_true, if_false, hne]
  refine ⟨_, rfl, ?_⟩
  rw [List.map_map]
  rw [show (VRow.vendor ∘ mkVRow (df.filter (windowPred sd ed))) = fun v => v from rfl]
  simp only [List.map_id']
  simp only [vendorKeys, mem_ssort, mem_dedup, List.mem_map]
  exact ⟨r, hmemf, rfl⟩

/-- C9 witness: a lone "Deposit" row (class "other") still yields a
summary row for its vendor. -/
theorem vendor_retained_witness :
    ∃ t, aggregate_vendor_data_by_date
        [⟨"2025-08-20", "10", "99999", "Deposit", "Zed"⟩] "2025-08-18" "2025-08-24"
      = Except.ok t ∧ "Zed" ∈ t.rows.map VRow.vendor :=
  vendor_retained [⟨"2025-08-20", "10", "99999", "Deposit", "Zed"⟩]
    "2025-08-18" "2025-08-24" ⟨2025, 8, 18⟩ ⟨2025, 8, 24⟩
    ⟨"2025-08-20", "10", "99999", "Deposit", "Zed"⟩
    (by decide) (by decide) (by decide) (by decide) (by decide)

/-- Rows whose date fails to parse are transparent to the window filter. -/
theorem rows_filter_parseable (sd ed : Date) (l : List Row) :
    l.filter (windowPred sd ed)
      = (l.filter (fun r => (parseDateNorm r.date).isSome)).filter (windowPred sd ed) := by
  induction l with
  | nil => rfl
  | cons a t ih =>
      cases hp : parseDateNorm a.date with
      | none =>
          have hw : windowPred sd ed a = false := by simp [windowPred, hp]
          simp [List.filter_cons, hw, hp, ih]
      | some d =>
          simp [List.filter_cons, hp, ih]

/-- C10: with valid window bounds, aggregation always returns an ok
value — row dates never raise — and deleting every row with an
unparseable date beforehand does not change the result, i.e. such rows
are silently treated as out of every window. -/
theorem unparseable_row_dates_skipped (df : List Row) (s e : String) (sd ed : Date)
    (hs : parseDateNorm s = some sd) (he : parseDateNorm e = some ed)
    (hse : dateLT ed sd = false) :
    (∃ t, aggregate_vendor_data_by_date df s e = Except.ok t)
    ∧ aggregate_vendor_data_by_date df s e
      = aggregate_vendor_data_by_date
          (df.filter (fun r => (parseDateNorm r.date).isSome)) s e := by
  unfold aggregate_vendor_data_by_date
  rw [hs, he]
  simp only [hse, Bool.false_eq_true, if_false]
  rw [← rows_filter_parseable]
  constructor
  · cases (df.filter (windowPred sd ed)).isEmpty <;> simp
  · rfl

/-- C10 witness: a table whose only row has the date "not a date". -/
theorem unparseable_row_dates_skipped_witness :
    (∃ t, aggregate_vendor_data_by_date
        [⟨"not a date", "10", "13150", "Bill Payment", "Acme"⟩]
        "2025-08-18" "2025-08-24" = Except.ok t)
    ∧ aggregate_vendor_data_by_date
        [⟨"not a date", "10", "13150", "Bill Payment", "Acme"⟩]
        "2025-08-18" "2025-08-24"
      = aggregate_vendor_data_by_date
          ([⟨"not a date", "10", "13150", "Bill Payment", "Acme"⟩].filter
            (fun r => (parseDateNorm r.date).isSome))
          "2025-08-18" "2025-08-24" :=
  unparseable_row_dates_skipped [⟨"not a date", "10", "13150", "Bill Payment", "Acme"⟩]
    "2025-08-18" "2025-08-24" ⟨2025, 8, 18⟩ ⟨2025, 8, 24⟩
    (by decide) (by decide) (by decide)

end VendorPayable
